import Mathlib

/-!
Shallow embedding of the upload-ingestion / flashcard-generation pipeline of
the `narteyr/flashcards` repository (the pipeline module concatenated at the
end of `src/src/components/ui/input.tsx`, lines 376-775).

Conventions of the embedding:
* JavaScript exceptions are modelled with `Except String`; async functions
  that both mutate state (the status tracker store, the repository call log)
  and may throw are modelled as explicit state-passing functions
  `... → PipeState → Except String α × PipeState`.
* The injected external collaborators (`StorageService`, loaders, splitter,
  LLM client, repository, and the platform builtin `JSON.parse`) are fields
  of the `Deps` record, arbitrary pure functions.
* JSON values produced by `JSON.parse` are modelled by the inductive
  `JsValue`; numeric literals are modelled as integers (no claim depends on
  float formatting).  JavaScript string coercion `String(v)` is `jsToString`,
  and member access `v.k` on a non-object yields `none` (undefined), except
  on `null` where it throws a TypeError, as in JavaScript.
-/

namespace Flashcards

/-- The five job statuses of the pipeline (`JobStatus` union type). -/
inductive JobStatus
  | queued
  | parsing
  | generating
  | complete
  | failed
deriving DecidableEq

/-- String name of a status, used in error messages. -/
def statusName : JobStatus → String
  | .queued => "queued"
  | .parsing => "parsing"
  | .generating => "generating"
  | .complete => "complete"
  | .failed => "failed"

/-- The transition table `ALLOWED_STATUS_TRANSITIONS` of the source. -/
def ALLOWED_STATUS_TRANSITIONS : JobStatus → List JobStatus
  | .queued => [.parsing, .failed]
  | .parsing => [.generating, .failed]
  | .generating => [.complete, .failed]
  | .complete => []
  | .failed => []

/-- Summary of a file attached to a status payload (`toFileSummary` result). -/
structure FileSummary where
  id : String
  name : String
  size : Nat
  mimeType : String
deriving DecidableEq

/-- `StatusPayload` of the source (free-form extension fields omitted). -/
structure StatusPayload where
  files : Option (List FileSummary)
  documentCount : Option Nat
  chunkCount : Option Nat
  flashcardCount : Option Nat
  error : Option String
deriving DecidableEq

/-- Payload carrying only a file list. -/
def payloadFiles (fs : List FileSummary) : StatusPayload := ⟨some fs, none, none, none, none⟩

/-- Payload carrying only a document count. -/
def payloadDocCount (n : Nat) : StatusPayload := ⟨none, some n, none, none, none⟩

/-- Payload carrying only a flashcard count. -/
def payloadCardCount (n : Nat) : StatusPayload := ⟨none, none, none, some n, none⟩

/-- Payload carrying only an error message. -/
def payloadError (e : String) : StatusPayload := ⟨none, none, none, none, some e⟩

/-- One invocation of `tracker.set` recorded during a run. -/
structure SetCall where
  jobId : String
  status : JobStatus
  payload : Option StatusPayload
deriving DecidableEq

/-- An `UploadedFile` record as returned by the storage service. -/
structure UploadedFile where
  id : String
  userId : String
  jobId : String
  name : String
  size : Nat
  mimeType : String
  uri : String
  checksum : Option String
deriving DecidableEq

/-- A `Document`: normalized extracted text.  Metadata is modelled as a
string-to-string association list; lookup takes the first (most recently
written) binding. -/
structure Document where
  id : String
  pageContent : String
  metadata : List (String × String)
deriving DecidableEq

/-- A raw document as produced by a loader, before decoration by
`loadDocuments`; its `id` may be absent (the `doc.id ?? ...` fallback). -/
structure RawDocument where
  id : Option String
  pageContent : String
  metadata : List (String × String)
deriving DecidableEq

/-- A `DocumentChunk`: a `Document` plus chunk index and chunk id. -/
structure DocumentChunk extends Document where
  chunkIndex : Nat
  chunkId : String
deriving DecidableEq

/-- A generated `Flashcard`. -/
structure Flashcard where
  id : String
  front : String
  back : String
  tags : Option (List String)
  sourceChunkIds : Option (List String)
deriving DecidableEq

/-- The `tone` option values. -/
inductive Tone
  | concise
  | detailed
  | beginner
  | advanced
deriving DecidableEq

/-- String name of a tone, used in the prompt. -/
def toneName : Tone → String
  | .concise => "concise"
  | .detailed => "detailed"
  | .beginner => "beginner"
  | .advanced => "advanced"

/-- `FlashcardOptions` of the source; the temperature is a rational standing
in for the JavaScript number. -/
structure FlashcardOptions where
  topic : Option String
  tone : Option Tone
  maxCards : Option Nat
  temperature : Option ℚ
deriving DecidableEq

/-- Options record with every field absent. -/
def emptyOptions : FlashcardOptions := ⟨none, none, none, none⟩

/-- File reference stored in generation metadata (`{ id, name, uri }`). -/
structure FileRef where
  id : String
  name : String
  uri : String
deriving DecidableEq

/-- `GenerationMetadata` of the source. -/
structure GenerationMetadata where
  jobId : String
  files : List FileRef
  options : FlashcardOptions
  createdAt : String
deriving DecidableEq

/-- The argument record of `repository.saveFlashcards`. -/
structure SaveInput where
  userId : String
  flashcards : List Flashcard
  metadata : GenerationMetadata
deriving DecidableEq

/-- Observable pipeline state: the status store backing the tracker, the log
of `tracker.set` invocations, and the log of repository invocations. -/
structure PipeState where
  store : List (String × JobStatus)
  setLog : List SetCall
  repoCalls : List SaveInput
deriving DecidableEq

/-- Lookup in the status store; the head of the list is the latest write. -/
def storeLookup : List (String × JobStatus) → String → Option JobStatus
  | [], _ => none
  | (k, v) :: rest, key => if k = key then some v else storeLookup rest key

/-- Effect of `tracker.set jobId status payload`: record the new status (a
fresh binding shadowing any earlier one) and append to the set log. -/
def trackerSet (jobId : String) (status : JobStatus) (payload : Option StatusPayload)
    (st : PipeState) : PipeState :=
  ⟨(jobId, status) :: st.store, st.setLog ++ [⟨jobId, status, payload⟩], st.repoCalls⟩

/-- `updateJobStatus` of the source.  `hasGet` models whether the tracker
implements its optional `get` operation; when it does, `get` returns the
latest status written by `set` for that job. -/
def updateJobStatus (hasGet : Bool) (jobId : String) (status : JobStatus)
    (payload : Option StatusPayload) (st : PipeState) :
    Except String Unit × PipeState :=
  let previous := if hasGet then storeLookup st.store jobId else none
  match previous with
  | none =>
      if status = JobStatus.queued then
        (Except.ok (), trackerSet jobId status payload st)
      else
        (Except.error ("Job " ++ jobId ++ " must start in queued state"), st)
  | some prev =>
      if status ∈ ALLOWED_STATUS_TRANSITIONS prev then
        (Except.ok (), trackerSet jobId status payload st)
      else
        (Except.error ("Invalid status transition from " ++ statusName prev
          ++ " to " ++ statusName status), st)

/-! JSON values and JavaScript coercions -/

/-- A JSON value as returned by the platform builtin `JSON.parse`.
Numeric literals are modelled as integers. -/
inductive JsValue
  | null
  | bool (b : Bool)
  | num (n : Int)
  | str (s : String)
  | arr (xs : List JsValue)
  | obj (fields : List (String × JsValue))

mutual

/-- JavaScript string coercion `String(v)` of a JSON value. -/
def jsToString : JsValue → String
  | .null => "null"
  | .bool true => "true"
  | .bool false => "false"
  | .num n => toString n
  | .str s => s
  | .arr xs => jsJoin xs
  | .obj _ => "[object Object]"

/-- `Array.prototype.join` with separator comma; a null element renders as
the empty string (the null cases are split out so the recursion stays
structural). -/
def jsJoin : List JsValue → String
  | [] => ""
  | [JsValue.null] => ""
  | [x] => jsToString x
  | JsValue.null :: rest => "," ++ jsJoin rest
  | x :: rest => jsToString x ++ "," ++ jsJoin rest

end

/-- Lookup of a key in a JSON object field list (first binding wins;
`JSON.parse` produces objects without duplicate keys). -/
def fieldLookup : List (String × JsValue) → String → Option JsValue
  | [], _ => none
  | (k, v) :: rest, key => if k = key then some v else fieldLookup rest key

/-- JavaScript member access `v.key` on a JSON value that is not null:
yields the field of an object, `none` (undefined) otherwise. -/
def getField : JsValue → String → Option JsValue
  | .obj fields, key => fieldLookup fields key
  | _, _ => none

/-- JavaScript nullish coalescing: `a ?? b` where absent or null falls
through to `b`. -/
def nullishOr (a b : Option JsValue) : Option JsValue :=
  match a with
  | some JsValue.null => b
  | none => b
  | some v => some v

/-- The value of `entry.k1 ?? entry.k2 ?? ''` for a non-null `entry`. -/
def coalesceField (entry : JsValue) (k1 k2 : String) : JsValue :=
  (nullishOr (getField entry k1)
    (nullishOr (getField entry k2) (some (JsValue.str "")))).getD (JsValue.str "")

/-! Response parsing (`parseFlashcardsResponse`) -/

/-- Index of the first occurrence of a character (`String.prototype.indexOf`),
as `Option` instead of the JavaScript sentinel -1. -/
def firstIndexOf : List Char → Char → Option Nat
  | [], _ => none
  | c :: rest, t => if c = t then some 0 else (firstIndexOf rest t).map (· + 1)

/-- Index of the last occurrence of a character
(`String.prototype.lastIndexOf`). -/
def lastIndexOf (l : List Char) (t : Char) : Option Nat :=
  (firstIndexOf l.reverse t).map (fun i => l.length - 1 - i)

/-- `String.prototype.trim`: strip leading and trailing whitespace. -/
def jsTrim (s : String) : List Char :=
  ((s.data.dropWhile Char.isWhitespace).reverse.dropWhile Char.isWhitespace).reverse

/-- The bracket-scanning step of `parseFlashcardsResponse`: trim the raw
response, find the first `[` and the last `]`, and return the slice from the
first bracket to just past the last one; `none` when either bracket is
missing. -/
def bracketSlice (raw : String) : Option String :=
  let trimmed := jsTrim raw
  match firstIndexOf trimmed '[', lastIndexOf trimmed ']' with
  | some a, some b => some (String.mk ((trimmed.take (b + 1)).drop a))
  | _, _ => none

/-- The mapping of one parsed entry to a flashcard (the callback of
`allowed.map((entry, index) => ...)`).  On a null entry the first member
access `entry.front` throws a TypeError, as in JavaScript. -/
def toFlashcard (chunks : List DocumentChunk) (index : Nat) (entry : JsValue) :
    Except String Flashcard :=
  match entry with
  | .null => Except.error "TypeError: Cannot read properties of null"
  | _ =>
      Except.ok
        ⟨"card_" ++ toString index,
         jsToString (coalesceField entry "front" "question"),
         jsToString (coalesceField entry "back" "answer"),
         (match getField entry "tags" with
          | some (JsValue.arr ts) => some (ts.map jsToString)
          | _ => none),
         some (match getField entry "sourceChunkIds" with
          | some (JsValue.arr ids) => ids.map jsToString
          | _ => ((chunks.drop index).take 1).map (fun c => c.chunkId))⟩

/-- Index-carrying traversal over `Except`, mirroring `Array.prototype.map`
with a callback that may throw. -/
def mapWithIndexFrom (f : Nat → JsValue → Except String Flashcard) :
    Nat → List JsValue → Except String (List Flashcard)
  | _, [] => Except.ok []
  | i, x :: rest =>
      match f i x with
      | Except.error e => Except.error e
      | Except.ok y =>
          match mapWithIndexFrom f (i + 1) rest with
          | Except.error e => Except.error e
          | Except.ok ys => Except.ok (y :: ys)

/-- `parseFlashcardsResponse` of the source, parametrized by the platform
builtin `JSON.parse` (modelled as `jsonParse`, returning `none` exactly when
the string is not valid JSON). -/
def parseFlashcardsResponse (jsonParse : String → Option JsValue) (raw : String)
    (chunks : List DocumentChunk) (maxCards : Nat) : Except String (List Flashcard) :=
  match bracketSlice raw with
  | none => Except.error "Claude response did not include JSON array"
  | some json =>
      match jsonParse json with
      | none => Except.error "Claude response JSON parse failed"
      | some (JsValue.arr parsed) =>
          mapWithIndexFrom (toFlashcard chunks) 0 (parsed.take maxCards)
      | some _ => Except.error "Claude response malformed: expected array"

/-! Flashcard generation (`generateFlashcards`) -/

/-- `truncate` of the source: cap a string at `maxLength` characters, with a
trailing ellipsis when cut. -/
def truncate (value : String) (maxLength : Nat) : String :=
  if value.length ≤ maxLength then value
  else value.take (maxLength - 3) ++ "..."

/-- One line of the chunk section of the prompt. -/
def chunkPromptLine (chunk : DocumentChunk) : String :=
  "Chunk " ++ toString chunk.chunkIndex ++ ": " ++ truncate chunk.pageContent 1200

/-- Join a list of lines with newlines (`Array.prototype.join` with `\n`). -/
def joinLines : List String → String
  | [] => ""
  | [x] => x
  | x :: rest => x ++ "\n" ++ joinLines rest

/-- The prompt built by `generateFlashcards` from the first 25 chunks and the
resolved options. -/
def buildPrompt (chunks : List DocumentChunk) (topic : String) (tone : Tone)
    (maxCards : Nat) : String :=
  joinLines
    (["You are an assistant that creates flashcards for learners.",
      "Topic: " ++ topic,
      "Tone: " ++ toneName tone,
      "Create up to " ++ toString maxCards ++ " flashcards.",
      "Respond with JSON using the shape [\x7b \"front\": \"...\", \"back\": \"...\", \"tags\": [\"...\"] \x7d].",
      "Use the supplied document chunks as source material.",
      ""] ++ (chunks.take 25).map chunkPromptLine)

/-- `generateFlashcards` of the source, parametrized by the LLM client
(`claude.generateFlashcards`, a prompt and temperature to raw-text function
that may throw) and by the platform `JSON.parse`. -/
def generateFlashcards (jsonParse : String → Option JsValue)
    (chunks : List DocumentChunk) (options : FlashcardOptions)
    (claude : String → ℚ → Except String String) : Except String (List Flashcard) :=
  if chunks.isEmpty then Except.ok []
  else
    let maxCards := options.maxCards.getD 20
    let temperature := options.temperature.getD 0.2
    let topic := options.topic.getD "Study Material"
    let tone := options.tone.getD Tone.concise
    let prompt := buildPrompt chunks topic tone maxCards
    match claude prompt temperature with
    | Except.error e => Except.error e
    | Except.ok raw => parseFlashcardsResponse jsonParse raw chunks maxCards

/-! Document loading (`loadDocuments`) -/

/-- Write one metadata key, shadowing any earlier binding (object spread with
the explicit key written after the spread, so the explicit key wins). -/
def metaSet (m : List (String × String)) (k v : String) : List (String × String) :=
  (k, v) :: m

/-- Metadata lookup: first (most recently written) binding wins. -/
def metaLookup : List (String × String) → String → Option String
  | [], _ => none
  | (k, v) :: rest, key => if k = key then some v else metaLookup rest key

/-- Decoration of one loaded raw document by `loadDocuments`: id fallback
`<fileId>:<index>` and merged source metadata. -/
def decorateDocument (file : UploadedFile) (index : Nat) (doc : RawDocument) : Document :=
  ⟨doc.id.getD (file.id ++ ":" ++ toString index),
   doc.pageContent,
   metaSet (metaSet (metaSet doc.metadata "sourceFileId" file.id)
     "sourceFileName" file.name) "mediaType" file.mimeType⟩

/-- The loader factory: maps a file to a loader (a fallible producer of raw
documents) or to `none` when no loader is registered for its media type. -/
abbrev DocumentLoaderFactory : Type :=
  UploadedFile → Option (UploadedFile → Except String (List RawDocument))

/-- The `loaded.forEach((doc, index) => ...)` loop: decorate each raw
document of one file with its index. -/
def decorateFrom (file : UploadedFile) : Nat → List RawDocument → List Document
  | _, [] => []
  | i, d :: rest => decorateDocument file i d :: decorateFrom file (i + 1) rest

/-- Index-decorating map over the documents of one file. -/
def decorateAll (file : UploadedFile) (docs : List RawDocument) : List Document :=
  decorateFrom file 0 docs

/-- `loadDocuments` of the source: for each file in order, obtain its loader
(throwing a no-loader error when the factory yields none), run it, and
append the decorated documents. -/
def loadDocuments (files : List UploadedFile) (loaderFactory : DocumentLoaderFactory) :
    Except String (List Document) :=
  match files with
  | [] => Except.ok []
  | file :: rest =>
      match loaderFactory file with
      | none => Except.error ("No document loader registered for " ++ file.mimeType)
      | some loader =>
          match loader file with
          | Except.error e => Except.error e
          | Except.ok loaded =>
              match loadDocuments rest loaderFactory with
              | Except.error e => Except.error e
              | Except.ok restDocs => Except.ok (decorateAll file loaded ++ restDocs)

/-! Persistence (`persistFlashcards`) -/

/-- `persistFlashcards` of the source: skip the repository entirely on an
empty flashcard list, otherwise invoke `repository.saveFlashcards` exactly
once (the invocation is logged in the state even when the repository
throws). -/
def persistFlashcards (userId : String) (flashcards : List Flashcard)
    (metadata : GenerationMetadata) (repository : SaveInput → Except String Unit)
    (st : PipeState) : Except String Unit × PipeState :=
  if flashcards.isEmpty then (Except.ok (), st)
  else
    let input : SaveInput := ⟨userId, flashcards, metadata⟩
    let st' : PipeState := ⟨st.store, st.setLog, st.repoCalls ++ [input]⟩
    match repository input with
    | Except.ok _ => (Except.ok (), st')
    | Except.error e => (Except.error e, st')

/-! Request validation and the orchestrator (`handleUpload`) -/

/-- One submitted file of the multipart `files` field. -/
structure FormFile where
  name : String
  size : Nat
  type : String
deriving DecidableEq

/-- One entry of `formData.getAll(files)`: either a `File` or some other
value (the `entry instanceof File` check of the source). -/
inductive FormEntry
  | file (f : FormFile)
  | nonFile
deriving DecidableEq

/-- The parsed upload request: method, whether a form body is present
(`typeof request.formData === function`), the `files`, `userId` and `topic`
fields. -/
structure UploadRequest where
  method : String
  hasFormData : Bool
  files : List FormEntry
  userId : Option String
  topic : Option String
deriving DecidableEq

/-- `DEFAULT_ALLOWED_MIME_TYPES` of the source. -/
def DEFAULT_ALLOWED_MIME_TYPES : List String :=
  ["application/pdf",
   "application/vnd.openxmlformats-officedocument.wordprocessingml.document",
   "text/plain",
   "text/csv",
   "image/png",
   "image/jpeg"]

/-- `DEFAULT_MAX_FILE_SIZE_BYTES` of the source (25 MiB). -/
def DEFAULT_MAX_FILE_SIZE_BYTES : Nat := 25 * 1024 * 1024

/-- The validation loop of `handleUpload`: split the raw entries into the
valid files (in order) and the per-file error list (in order). -/
def validateEntries (allowed : List String) (maxSize : Nat) :
    List FormEntry → List FormFile × List String
  | [] => ([], [])
  | e :: rest =>
      let r := validateEntries allowed maxSize rest
      match e with
      | FormEntry.nonFile => (r.1, "Encountered non-file value in files payload" :: r.2)
      | FormEntry.file f =>
          if f.type ∉ allowed then
            (r.1, (f.name ++ " has unsupported type " ++ f.type) :: r.2)
          else if f.size > maxSize then
            (r.1, (f.name ++ " exceeds size limit") :: r.2)
          else (f :: r.1, r.2)

/-- The JSON response body: status code plus the union of the object fields
used by the `jsonResponse` call sites of the source (`details` is a string list
for validation failures and a plain string for pipeline failures). -/
structure Response where
  status : Nat
  error : Option String
  details : Option (List String)
  detailsMsg : Option String
  jobId : Option String
  flashcardCount : Option Nat
  message : Option String
deriving DecidableEq

/-- The injected dependencies of `handleUpload` plus the modelled platform
pieces: `jsonParse` stands for the builtin `JSON.parse`, `fallbackId` for
the random id of `generateFallbackId`, and `now` for
`new Date().toISOString()`. -/
structure Deps where
  storage : FormFile → String → String → Except String UploadedFile
  loaderFactory : DocumentLoaderFactory
  splitter : List Document → Except String (List DocumentChunk)
  claude : String → ℚ → Except String String
  jsonParse : String → Option JsValue
  repository : SaveInput → Except String Unit
  hasGet : Bool
  allowedMimeTypes : Option (List String)
  maxFileSizeBytes : Option Nat
  idGenerator : Option String
  fallbackId : String
  flashcardOptions : Option FlashcardOptions
  now : String

/-- The job id chosen by `handleUpload`: the injected generator when present,
otherwise the random fallback. -/
def jobIdOf (deps : Deps) : String := deps.idGenerator.getD deps.fallbackId

/-- `toFileSummary` on a raw `File` (id is the literal `inline`). -/
def formSummary (f : FormFile) : FileSummary := ⟨"inline", f.name, f.size, f.type⟩

/-- `toFileSummary` on an `UploadedFile`. -/
def uploadedSummary (f : UploadedFile) : FileSummary := ⟨f.id, f.name, f.size, f.mimeType⟩

/-- Sequential `storage.saveFile` over the valid files (the `Promise.all`
of the source, over pure collaborators). -/
def saveAll (storage : FormFile → String → String → Except String UploadedFile)
    (userId jobId : String) : List FormFile → Except String (List UploadedFile)
  | [] => Except.ok []
  | f :: rest =>
      match storage f userId jobId with
      | Except.error e => Except.error e
      | Except.ok u =>
          match saveAll storage userId jobId rest with
          | Except.error e => Except.error e
          | Except.ok us => Except.ok (u :: us)

/-- The flashcard options used for the run: the injected defaults, with the
`topic` field overwritten by the topic of the request (present or not), as
the spread `{...deps.flashcardOptions, topic}` in the source does. -/
def resolvedOptions (deps : Deps) (topic : Option String) : FlashcardOptions :=
  let base := deps.flashcardOptions.getD emptyOptions
  ⟨topic, base.tone, base.maxCards, base.temperature⟩

/-- The body of the `try` block of the orchestrator: storage, parsing transition,
document loading, generating transition, chunking, generation, persistence,
complete transition, success response. -/
def processJob (deps : Deps) (userId : String) (topic : Option String)
    (files : List FormFile) (jobId : String) (st : PipeState) :
    Except String Response × PipeState :=
  match saveAll deps.storage userId jobId files with
  | Except.error e => (Except.error e, st)
  | Except.ok uploadedFiles =>
    match updateJobStatus deps.hasGet jobId JobStatus.parsing
        (some (payloadFiles (uploadedFiles.map uploadedSummary))) st with
    | (Except.error e, st1) => (Except.error e, st1)
    | (Except.ok _, st1) =>
      match loadDocuments uploadedFiles deps.loaderFactory with
      | Except.error e => (Except.error e, st1)
      | Except.ok documents =>
        match updateJobStatus deps.hasGet jobId JobStatus.generating
            (some (payloadDocCount documents.length)) st1 with
        | (Except.error e, st2) => (Except.error e, st2)
        | (Except.ok _, st2) =>
          match deps.splitter documents with
          | Except.error e => (Except.error e, st2)
          | Except.ok chunks =>
            let options := resolvedOptions deps topic
            match generateFlashcards deps.jsonParse chunks options deps.claude with
            | Except.error e => (Except.error e, st2)
            | Except.ok flashcards =>
              match persistFlashcards userId flashcards
                  ⟨jobId, uploadedFiles.map (fun u => ⟨u.id, u.name, u.uri⟩),
                   options, deps.now⟩ deps.repository st2 with
              | (Except.error e, st3) => (Except.error e, st3)
              | (Except.ok _, st3) =>
                match updateJobStatus deps.hasGet jobId JobStatus.complete
                    (some (payloadCardCount flashcards.length)) st3 with
                | (Except.error e, st4) => (Except.error e, st4)
                | (Except.ok _, st4) =>
                    (Except.ok ⟨200, none, none, none, some jobId,
                      some flashcards.length, some "Flashcards generated successfully"⟩, st4)

/-- The post-validation part of `handleUpload`: the queued transition
(outside the `try`, so its exceptions propagate), then the `try` body, with
the `catch` recording a failed transition (whose own exception would also
propagate) and building the 500 response. -/
def runJob (deps : Deps) (userId : String) (topic : Option String)
    (files : List FormFile) (jobId : String) (st : PipeState) :
    Except String Response × PipeState :=
  match updateJobStatus deps.hasGet jobId JobStatus.queued
      (some (payloadFiles (files.map formSummary))) st with
  | (Except.error e, st1) => (Except.error e, st1)
  | (Except.ok _, st1) =>
    match processJob deps userId topic files jobId st1 with
    | (Except.ok resp, st2) => (Except.ok resp, st2)
    | (Except.error message, st2) =>
      match updateJobStatus deps.hasGet jobId JobStatus.failed
          (some (payloadError message)) st2 with
      | (Except.error e, st3) => (Except.error e, st3)
      | (Except.ok _, st3) =>
          (Except.ok ⟨500, some "Failed to process documents", none,
            some message, some jobId, none, none⟩, st3)

/-- `String.prototype.toUpperCase`, character by character. -/
def jsToUpper (s : String) : String := String.mk (s.data.map Char.toUpper)

/-- `handleUpload` of the source: method and body guards, per-file
validation, then the job pipeline. -/
def handleUpload (req : UploadRequest) (deps : Deps) (st : PipeState) :
    Except String Response × PipeState :=
  if jsToUpper req.method ≠ "POST" then
    (Except.ok ⟨405, some "Method not allowed", none, none, none, none, none⟩, st)
  else if !req.hasFormData then
    (Except.ok ⟨400, some "Invalid request payload", none, none, none, none, none⟩, st)
  else if req.files.isEmpty then
    (Except.ok ⟨400, some "No files provided", none, none, none, none, none⟩, st)
  else
    let userId := req.userId.getD "anonymous"
    let allowedTypes := deps.allowedMimeTypes.getD DEFAULT_ALLOWED_MIME_TYPES
    let maxSize := deps.maxFileSizeBytes.getD DEFAULT_MAX_FILE_SIZE_BYTES
    let vr := validateEntries allowedTypes maxSize req.files
    if vr.1.isEmpty then
      (Except.ok ⟨400, some "No valid files found", some vr.2, none, none, none, none⟩, st)
    else
      runJob deps userId req.topic vr.1 (jobIdOf deps) st

/-! Specification-side definitions (written from the words of the spec and
claims, to be compared with the source-derived definitions above). -/

/-- The transition table of spec section 4.4, written from the spec:
queued to parsing or failed, parsing to generating or failed, generating to
complete or failed, and no transition out of complete or failed. -/
def specAllowedNext (c n : JobStatus) : Bool :=
  match c, n with
  | JobStatus.queued, JobStatus.parsing => true
  | JobStatus.queued, JobStatus.failed => true
  | JobStatus.parsing, JobStatus.generating => true
  | JobStatus.parsing, JobStatus.failed => true
  | JobStatus.generating, JobStatus.complete => true
  | JobStatus.generating, JobStatus.failed => true
  | _, _ => false

/-- Whether a status may follow the given previous persisted status (absent
previous status: only queued may start). -/
def okNext : Option JobStatus → JobStatus → Bool
  | none, s => decide (s = JobStatus.queued)
  | some c, s => specAllowedNext c s

/-- A valid continuation of a path from a current status. -/
def validPathFrom : JobStatus → List JobStatus → Bool
  | _, [] => true
  | c, s :: rest => specAllowedNext c s && validPathFrom s rest

/-- A valid path through the spec section 4.4 table starting from no record:
empty, or starting at queued with every consecutive pair allowed (terminal
states allow no successor). -/
def validPath : List JobStatus → Bool
  | [] => true
  | s :: rest => decide (s = JobStatus.queued) && validPathFrom s rest

/-- One driver step on the tracker: run `updateJobStatus` for a requested
status and keep the resulting state (on an illegal transition the exception
leaves the state unmodified). -/
def applyUpdate (jobId : String) (st : PipeState) (req : JobStatus) : PipeState :=
  (updateJobStatus true jobId req none st).2

/-- Drive a job through an arbitrary sequence of requested statuses. -/
def runUpdates (jobId : String) (reqs : List JobStatus) (st : PipeState) : PipeState :=
  reqs.foldl (applyUpdate jobId) st

/-- The statuses persisted (via `tracker.set`) for one job, in order. -/
def jobTrace (log : List SetCall) (jobId : String) : List JobStatus :=
  (log.filter (fun c => decide (c.jobId = jobId))).map (fun c => c.status)

/-- The pipeline state before any job exists. -/
def emptyState : PipeState := ⟨[], [], []⟩

/-- The flashcard an array entry is mapped to, written from the claim: front
from the front or question field coerced to string (empty if both absent),
back from the back or answer field likewise, tags from the tags array when
present, and source chunk ids from the sourceChunkIds array when present,
otherwise the chunk id of the chunk at the same positional index. -/
def specCard (chunks : List DocumentChunk) (index : Nat) (entry : JsValue) : Flashcard :=
  ⟨"card_" ++ toString index,
   jsToString (coalesceField entry "front" "question"),
   jsToString (coalesceField entry "back" "answer"),
   (match getField entry "tags" with
    | some (JsValue.arr ts) => some (ts.map jsToString)
    | _ => none),
   some (match getField entry "sourceChunkIds" with
    | some (JsValue.arr ids) => ids.map jsToString
    | _ => ((chunks.drop index).take 1).map (fun c => c.chunkId))⟩

/-- The claim-side mapping of a truncated entry list to flashcards, indexed
from a starting position. -/
def mapCardsFrom (chunks : List DocumentChunk) : Nat → List JsValue → List Flashcard
  | _, [] => []
  | i, e :: rest => specCard chunks i e :: mapCardsFrom chunks (i + 1) rest

/-! Helper lemmas -/

/-- After `tracker.set`, the stored status of the job is the one written. -/
theorem storeLookup_trackerSet (jobId : String) (status : JobStatus)
    (payload : Option StatusPayload) (st : PipeState) :
    storeLookup (trackerSet jobId status payload st).store jobId = some status := by
  simp [trackerSet, storeLookup]

/-- Membership in the source transition table agrees with the spec table. -/
theorem mem_transitions_iff_spec (c s : JobStatus) :
    s ∈ ALLOWED_STATUS_TRANSITIONS c ↔ specAllowedNext c s = true := by
  cases c <;> cases s <;> decide

/-! C1 -/

/-- C1: `updateJobStatus` on a tracker whose `get` reflects its `set`: with
no record, it succeeds exactly for `queued` and otherwise throws the
illegal-initial-transition error; with a record of current status `c`, it
succeeds exactly when the requested status is in the allowed-next set of the
transition table (which agrees with the table of spec section 4.4) and
otherwise throws the illegal-transition error; on success it persists the
new status via the tracker (the store maps the job to the new status and one
`set` call is appended). -/
theorem updateJobStatus_follows_transition_table (st : PipeState) (jobId : String)
    (status : JobStatus) (payload : Option StatusPayload) :
    (∀ c s, s ∈ ALLOWED_STATUS_TRANSITIONS c ↔ specAllowedNext c s = true) ∧
    (storeLookup st.store jobId = none →
      ((updateJobStatus true jobId status payload st).1 = Except.ok () ↔
          status = JobStatus.queued) ∧
      (status = JobStatus.queued →
        updateJobStatus true jobId status payload st =
          (Except.ok (), trackerSet jobId status payload st)) ∧
      (status ≠ JobStatus.queued →
        updateJobStatus true jobId status payload st =
          (Except.error ("Job " ++ jobId ++ " must start in queued state"), st))) ∧
    (∀ c, storeLookup st.store jobId = some c →
      ((updateJobStatus true jobId status payload st).1 = Except.ok () ↔
          status ∈ ALLOWED_STATUS_TRANSITIONS c) ∧
      (status ∈ ALLOWED_STATUS_TRANSITIONS c →
        updateJobStatus true jobId status payload st =
          (Except.ok (), trackerSet jobId status payload st)) ∧
      (status ∉ ALLOWED_STATUS_TRANSITIONS c →
        updateJobStatus true jobId status payload st =
          (Except.error ("Invalid status transition from " ++ statusName c
            ++ " to " ++ statusName status), st))) ∧
    (storeLookup (trackerSet jobId status payload st).store jobId = some status ∧
      (trackerSet jobId status payload st).setLog =
        st.setLog ++ [⟨jobId, status, payload⟩]) := by
  refine ⟨mem_transitions_iff_spec, ?_, ?_, storeLookup_trackerSet .., rfl⟩
  · intro hnone
    unfold updateJobStatus
    simp only [if_pos rfl, hnone]
    by_cases hq : status = JobStatus.queued
    · simp [hq]
    · simp [hq]
  · intro c hsome
    unfold updateJobStatus
    simp only [if_pos rfl, hsome]
    by_cases hmem : status ∈ ALLOWED_STATUS_TRANSITIONS c
    · simp [hmem]
    · simp [hmem]

/-- Witness for C1: on a tracker holding `queued` for job `job-x`, the
transition to `parsing` succeeds and persists `parsing`. -/
theorem updateJobStatus_follows_transition_table_witness :
    updateJobStatus true "job-x" JobStatus.parsing none
        ⟨[("job-x", JobStatus.queued)], [], []⟩ =
      (Except.ok (), trackerSet "job-x" JobStatus.parsing none
        ⟨[("job-x", JobStatus.queued)], [], []⟩) ∧
    storeLookup (trackerSet "job-x" JobStatus.parsing none
        ⟨[("job-x", JobStatus.queued)], [], []⟩).store "job-x" =
      some JobStatus.parsing := by
  have h := updateJobStatus_follows_transition_table
    ⟨[("job-x", JobStatus.queued)], [], []⟩ "job-x" JobStatus.parsing none
  exact ⟨((h.2.2.1 JobStatus.queued rfl).2.1) (by decide), h.2.2.2.1⟩

/-! C9 -/

/-- C9: on a tracker without the optional `get`, every job is treated as
having no prior record: every `queued` request persists via `set` with no
transition check, every other request throws the illegal-initial-transition
error; hence a full pipeline run over such a tracker (valid request, storage
succeeding) fails uncaught at the first transition after `queued`. -/
theorem updateJobStatus_without_get (st : PipeState) (jobId : String)
    (status : JobStatus) (payload : Option StatusPayload) :
    (updateJobStatus false jobId JobStatus.queued payload st =
      (Except.ok (), trackerSet jobId JobStatus.queued payload st)) ∧
    (status ≠ JobStatus.queued →
      updateJobStatus false jobId status payload st =
        (Except.error ("Job " ++ jobId ++ " must start in queued state"), st)) ∧
    (∀ (req : UploadRequest) (deps : Deps) (ups : List UploadedFile),
      deps.hasGet = false →
      jsToUpper req.method = "POST" →
      req.hasFormData = true →
      req.files.isEmpty = false →
      (validateEntries (deps.allowedMimeTypes.getD DEFAULT_ALLOWED_MIME_TYPES)
        (deps.maxFileSizeBytes.getD DEFAULT_MAX_FILE_SIZE_BYTES) req.files).1.isEmpty = false →
      saveAll deps.storage (req.userId.getD "anonymous") (jobIdOf deps)
        (validateEntries (deps.allowedMimeTypes.getD DEFAULT_ALLOWED_MIME_TYPES)
          (deps.maxFileSizeBytes.getD DEFAULT_MAX_FILE_SIZE_BYTES) req.files).1 =
        Except.ok ups →
      (handleUpload req deps st).1 =
        Except.error ("Job " ++ jobIdOf deps ++ " must start in queued state")) := by
  refine ⟨by simp [updateJobStatus], ?_, ?_⟩
  · intro hq
    simp [updateJobStatus, hq]
  · intro req deps ups hget hm hf hne hv hsave
    simp [handleUpload, hm, hf, hne, hv, hget, hsave, runJob, processJob, updateJobStatus]

/-- Witness for C9: a concrete get-less tracker run: the `queued` update
persists, a `parsing` update throws, and a full pipeline run errors out. -/
theorem updateJobStatus_without_get_witness :
    (updateJobStatus false "job-1" JobStatus.queued none emptyState =
      (Except.ok (), trackerSet "job-1" JobStatus.queued none emptyState)) ∧
    (updateJobStatus false "job-1" JobStatus.parsing none emptyState =
      (Except.error "Job job-1 must start in queued state", emptyState)) ∧
    (handleUpload ⟨"POST", true, [FormEntry.file ⟨"notes.txt", 50, "text/plain"⟩], none, none⟩
      ⟨fun f u j => Except.ok ⟨"file-1", u, j, f.name, f.size, f.type, "mem://file-1", none⟩,
       fun _ => some (fun _ => Except.ok []), fun _ => Except.ok [],
       fun _ _ => Except.error "llm", fun _ => none, fun _ => Except.ok (),
       false, none, none, some "job-1", "fb", none, "t0"⟩ emptyState).1 =
      Except.error "Job job-1 must start in queued state" := by
  have h := updateJobStatus_without_get emptyState "job-1" JobStatus.parsing none
  refine ⟨h.1, by simpa using h.2.1 (by decide), ?_⟩
  exact h.2.2 _ _ [⟨"file-1", "anonymous", "job-1", "notes.txt", 50, "text/plain", "mem://file-1", none⟩]
    rfl (by decide) rfl rfl (by decide) rfl

/-! C10 -/

/-- A GIF file of exactly the default maximum size. -/
def gifFile : FormFile := ⟨"a.gif", 25 * 1024 * 1024, "image/gif"⟩

/-- Counterexample for C10: a file of exactly the maximum size does not
always pass validation, and a rejection need not carry the exceeds-size
error: a GIF of exactly 25 MiB is rejected with the unsupported-type error. -/
theorem sizeCheck_claim_counterexample :
    gifFile.size = DEFAULT_MAX_FILE_SIZE_BYTES ∧
    validateEntries DEFAULT_ALLOWED_MIME_TYPES DEFAULT_MAX_FILE_SIZE_BYTES
        [FormEntry.file gifFile] =
      ([], ["a.gif has unsupported type image/gif"]) := by
  constructor
  · rfl
  · simp [validateEntries, gifFile, DEFAULT_ALLOWED_MIME_TYPES]

/-- C10 (amended): for a submitted file whose media type is in the
allow-list, the size check is strict: the file is rejected with the
exceeds-size-limit error exactly when its size strictly exceeds the maximum,
and a file of exactly the maximum size passes validation; the default
maximum is 25 * 1024 * 1024 bytes. -/
theorem sizeCheck_strict_for_allowed_types (allowed : List String) (maxSize : Nat)
    (f : FormFile) (hty : f.type ∈ allowed) :
    validateEntries allowed maxSize [FormEntry.file f] =
      (if f.size > maxSize then ([], [f.name ++ " exceeds size limit"]) else ([f], [])) ∧
    DEFAULT_MAX_FILE_SIZE_BYTES = 25 * 1024 * 1024 := by
  refine ⟨?_, rfl⟩
  by_cases hs : f.size > maxSize <;> simp [validateEntries, hty, hs]

/-- Witness for C10: a plain-text file of exactly the default maximum size
passes validation. -/
theorem sizeCheck_strict_for_allowed_types_witness :
    validateEntries DEFAULT_ALLOWED_MIME_TYPES DEFAULT_MAX_FILE_SIZE_BYTES
        [FormEntry.file ⟨"notes.txt", 25 * 1024 * 1024, "text/plain"⟩] =
      ([⟨"notes.txt", 25 * 1024 * 1024, "text/plain"⟩], []) := by
  have h := (sizeCheck_strict_for_allowed_types DEFAULT_ALLOWED_MIME_TYPES
    DEFAULT_MAX_FILE_SIZE_BYTES ⟨"notes.txt", 25 * 1024 * 1024, "text/plain"⟩
    (by decide)).1
  simpa [DEFAULT_MAX_FILE_SIZE_BYTES] using h

/-! C5 -/

/-- The valid files kept by the validation loop are exactly the submitted
files whose media type is allowed and whose size is within the limit, in
order. -/
theorem validateEntries_eq_filterMap (allowed : List String) (maxSize : Nat) :
    ∀ entries : List FormEntry,
      (validateEntries allowed maxSize entries).1 = entries.filterMap (fun e =>
        match e with
        | FormEntry.file f =>
            if f.type ∈ allowed ∧ f.size ≤ maxSize then some f else none
        | FormEntry.nonFile => none)
  | [] => rfl
  | e :: rest => by
      have ih := validateEntries_eq_filterMap allowed maxSize rest
      cases e with
      | nonFile => simpa [validateEntries] using ih
      | file f =>
          by_cases hty : f.type ∈ allowed
          · by_cases hsz : f.size > maxSize
            · simp [validateEntries, hty, hsz, Nat.not_le_of_lt hsz, ih]
            · simp [validateEntries, hty, hsz, Nat.le_of_not_lt (by simpa using hsz), ih]
          · simp [validateEntries, hty, ih]

/-- Every dropped entry contributes exactly one per-file error. -/
theorem validateEntries_length (allowed : List String) (maxSize : Nat) :
    ∀ entries : List FormEntry,
      (validateEntries allowed maxSize entries).1.length
        + (validateEntries allowed maxSize entries).2.length = entries.length
  | [] => rfl
  | e :: rest => by
      have ih := validateEntries_length allowed maxSize rest
      cases e with
      | nonFile => simp [validateEntries]; omega
      | file f =>
          by_cases hty : f.type ∈ allowed
          · by_cases hsz : f.size > maxSize
            · simp [validateEntries, hty, hsz]; omega
            · simp [validateEntries, hty, hsz]; omega
          · simp [validateEntries, hty]; omega

/-- C5: a POST multipart submission with a non-empty files field: the files
kept are exactly those with allowed media type and size within the limit
(everything else is dropped with one error entry per dropped file); when no
file remains valid the request fails with HTTP 400, an error body
"No valid files found" listing the per-file reasons, and an unchanged
pipeline state (no job record); when at least one file remains the pipeline
continues with exactly the valid files. -/
theorem handleUpload_validation (req : UploadRequest) (deps : Deps) (st : PipeState)
    (allowed : List String) (maxSize : Nat)
    (ha : deps.allowedMimeTypes.getD DEFAULT_ALLOWED_MIME_TYPES = allowed)
    (hx : deps.maxFileSizeBytes.getD DEFAULT_MAX_FILE_SIZE_BYTES = maxSize)
    (hm : jsToUpper req.method = "POST") (hf : req.hasFormData = true)
    (hne : req.files.isEmpty = false) :
    (validateEntries allowed maxSize req.files).1 = req.files.filterMap (fun e =>
        match e with
        | FormEntry.file f =>
            if f.type ∈ allowed ∧ f.size ≤ maxSize then some f else none
        | FormEntry.nonFile => none) ∧
    (validateEntries allowed maxSize req.files).1.length
      + (validateEntries allowed maxSize req.files).2.length = req.files.length ∧
    ((validateEntries allowed maxSize req.files).1 = [] →
      handleUpload req deps st =
        (Except.ok ⟨400, some "No valid files found",
          some (validateEntries allowed maxSize req.files).2,
          none, none, none, none⟩, st)) ∧
    ((validateEntries allowed maxSize req.files).1 ≠ [] →
      handleUpload req deps st =
        runJob deps (req.userId.getD "anonymous") req.topic
          (validateEntries allowed maxSize req.files).1 (jobIdOf deps) st) := by
  refine ⟨validateEntries_eq_filterMap allowed maxSize req.files,
    validateEntries_length allowed maxSize req.files, ?_, ?_⟩
  · intro hempty
    simp [handleUpload, hm, hf, hne, ha, hx, hempty]
  · intro hnonempty
    simp [handleUpload, hm, hf, hne, ha, hx, List.isEmpty_iff, hnonempty]

/-- Witness for C5 (scenario B): a single unsupported `image/gif` file yields
HTTP 400 with "No valid files found", the per-file reason, and no job
record. -/
theorem handleUpload_validation_witness :
    handleUpload ⟨"POST", true, [FormEntry.file ⟨"a.gif", 100, "image/gif"⟩], none, none⟩
      ⟨fun _ _ _ => Except.error "storage unavailable", fun _ => none,
       fun _ => Except.ok [], fun _ _ => Except.error "no llm", fun _ => none,
       fun _ => Except.ok (), true, none, none, some "job-1", "fb", none, "t0"⟩
      emptyState =
      (Except.ok ⟨400, some "No valid files found",
        some ["a.gif has unsupported type image/gif"], none, none, none, none⟩,
       emptyState) := by
  have h := (handleUpload_validation
    ⟨"POST", true, [FormEntry.file ⟨"a.gif", 100, "image/gif"⟩], none, none⟩
    ⟨fun _ _ _ => Except.error "storage unavailable", fun _ => none,
     fun _ => Except.ok [], fun _ _ => Except.error "no llm", fun _ => none,
     fun _ => Except.ok (), true, none, none, some "job-1", "fb", none, "t0"⟩
    emptyState DEFAULT_ALLOWED_MIME_TYPES DEFAULT_MAX_FILE_SIZE_BYTES
    rfl rfl (by decide) rfl rfl).2.2.1 (by decide)
  exact h.trans rfl

/-! C6 -/

/-- A first transition into `queued` succeeds and persists. -/
theorem updateJobStatus_ok_queued (jobId : String) (payload : Option StatusPayload)
    (st : PipeState) (h : storeLookup st.store jobId = none) :
    updateJobStatus true jobId JobStatus.queued payload st =
      (Except.ok (), trackerSet jobId JobStatus.queued payload st) := by
  unfold updateJobStatus
  simp [h]

/-- A transition allowed by the table succeeds and persists. -/
theorem updateJobStatus_ok_step (jobId : String) (s : JobStatus)
    (payload : Option StatusPayload) (st : PipeState) (c : JobStatus)
    (hc : storeLookup st.store jobId = some c)
    (hmem : s ∈ ALLOWED_STATUS_TRANSITIONS c) :
    updateJobStatus true jobId s payload st = (Except.ok (), trackerSet jobId s payload st) := by
  unfold updateJobStatus
  simp [hc, hmem]

/-- `persistFlashcards` touches only the repository call log, never the
status store or the set log. -/
theorem persistFlashcards_preserves (userId : String) (fl : List Flashcard)
    (md : GenerationMetadata) (repo : SaveInput → Except String Unit) (st : PipeState) :
    (persistFlashcards userId fl md repo st).2.store = st.store ∧
    (persistFlashcards userId fl md repo st).2.setLog = st.setLog := by
  unfold persistFlashcards
  by_cases h : fl.isEmpty
  · simp [h]
  · cases hrepo : repo ⟨userId, fl, md⟩ <;> simp [h, hrepo]

/-- When the `try` body of the orchestrator throws, the stored status of
the job
at the throw point is one of the non-terminal statuses. -/
theorem processJob_error_lookup (deps : Deps) (userId : String) (topic : Option String)
    (files : List FormFile) (jobId : String) (st : PipeState) (m : String) (st2 : PipeState)
    (hget : deps.hasGet = true)
    (hq : storeLookup st.store jobId = some JobStatus.queued)
    (h : processJob deps userId topic files jobId st = (Except.error m, st2)) :
    storeLookup st2.store jobId = some JobStatus.queued ∨
    storeLookup st2.store jobId = some JobStatus.parsing ∨
    storeLookup st2.store jobId = some JobStatus.generating := by
  unfold processJob at h
  rw [hget] at h
  cases hs : saveAll deps.storage userId jobId files with
  | error e =>
      rw [hs] at h
      simp only [Prod.mk.injEq] at h
      rw [← h.2]
      exact Or.inl hq
  | ok ups =>
      rw [hs] at h
      dsimp only at h
      rw [updateJobStatus_ok_step jobId JobStatus.parsing _ st JobStatus.queued hq
        (by decide)] at h
      dsimp only at h
      have hq1 := storeLookup_trackerSet jobId JobStatus.parsing
        (some (payloadFiles (ups.map uploadedSummary))) st
      cases hl : loadDocuments ups deps.loaderFactory with
      | error e =>
          rw [hl] at h
          simp only [Prod.mk.injEq] at h
          rw [← h.2]
          exact Or.inr (Or.inl hq1)
      | ok docs =>
          rw [hl] at h
          dsimp only at h
          rw [updateJobStatus_ok_step jobId JobStatus.generating _ _ JobStatus.parsing hq1
            (by decide)] at h
          dsimp only at h
          have hq2 := storeLookup_trackerSet jobId JobStatus.generating
            (some (payloadDocCount docs.length))
            (trackerSet jobId JobStatus.parsing
              (some (payloadFiles (ups.map uploadedSummary))) st)
          cases hsp : deps.splitter docs with
          | error e =>
              rw [hsp] at h
              simp only [Prod.mk.injEq] at h
              rw [← h.2]
              exact Or.inr (Or.inr hq2)
          | ok chunks =>
              rw [hsp] at h
              dsimp only at h
              cases hg : generateFlashcards deps.jsonParse chunks
                  (resolvedOptions deps topic) deps.claude with
              | error e =>
                  rw [hg] at h
                  simp only [Prod.mk.injEq] at h
                  rw [← h.2]
                  exact Or.inr (Or.inr hq2)
              | ok fl =>
                  rw [hg] at h
                  dsimp only at h
                  cases hp : persistFlashcards userId fl
                      ⟨jobId, ups.map (fun u => ⟨u.id, u.name, u.uri⟩),
                        resolvedOptions deps topic, deps.now⟩ deps.repository
                      (trackerSet jobId JobStatus.generating (some (payloadDocCount docs.length))
                        (trackerSet jobId JobStatus.parsing
                          (some (payloadFiles (ups.map uploadedSummary))) st)) with
                  | mk res st3 =>
                      have hst3 : st3.store = (trackerSet jobId JobStatus.generating
                          (some (payloadDocCount docs.length))
                          (trackerSet jobId JobStatus.parsing
                            (some (payloadFiles (ups.map uploadedSummary))) st)).store := by
                        have hpr := congrArg (fun p => p.2.store) hp
                        simpa using Eq.symm
                          ((persistFlashcards_preserves userId fl
                            ⟨jobId, ups.map (fun u => ⟨u.id, u.name, u.uri⟩),
                              resolvedOptions deps topic, deps.now⟩ deps.repository
                            (trackerSet jobId JobStatus.generating
                              (some (payloadDocCount docs.length))
                              (trackerSet jobId JobStatus.parsing
                                (some (payloadFiles (ups.map uploadedSummary))) st))).1.symm.trans
                            hpr)
                      have hq3 : storeLookup st3.store jobId = some JobStatus.generating := by
                        rw [hst3]
                        exact hq2
                      rw [hp] at h
                      cases res with
                      | error e =>
                          dsimp only at h
                          simp only [Prod.mk.injEq] at h
                          rw [← h.2]
                          exact Or.inr (Or.inr hq3)
                      | ok u =>
                          dsimp only at h
                          rw [updateJobStatus_ok_step jobId JobStatus.complete _ st3
                            JobStatus.generating hq3 (by decide)] at h
                          dsimp only at h
                          simp at h

/-- C6: for a validated upload request (POST, form body, at least one valid
file, fresh job id, tracker with a working `get`), any exception thrown by a
pipeline stage inside the `try` body makes `handleUpload` record a `failed`
transition carrying the error message as payload and return an HTTP 500
JSON body with the job identifier and the error description. -/
theorem handleUpload_stage_failure (req : UploadRequest) (deps : Deps) (st : PipeState)
    (m : String) (st2 : PipeState) (files : List FormFile) (errs : List String)
    (hm : jsToUpper req.method = "POST") (hf : req.hasFormData = true)
    (hne : req.files.isEmpty = false)
    (hget : deps.hasGet = true)
    (hv : validateEntries (deps.allowedMimeTypes.getD DEFAULT_ALLOWED_MIME_TYPES)
      (deps.maxFileSizeBytes.getD DEFAULT_MAX_FILE_SIZE_BYTES) req.files = (files, errs))
    (hvne : files.isEmpty = false)
    (hfresh : storeLookup st.store (jobIdOf deps) = none)
    (hrun : processJob deps (req.userId.getD "anonymous") req.topic files (jobIdOf deps)
      (trackerSet (jobIdOf deps) JobStatus.queued
        (some (payloadFiles (files.map formSummary))) st) = (Except.error m, st2)) :
    handleUpload req deps st =
      (Except.ok ⟨500, some "Failed to process documents", none, some m,
        some (jobIdOf deps), none, none⟩,
       trackerSet (jobIdOf deps) JobStatus.failed (some (payloadError m)) st2) ∧
    storeLookup (trackerSet (jobIdOf deps) JobStatus.failed
      (some (payloadError m)) st2).store (jobIdOf deps) = some JobStatus.failed ∧
    (trackerSet (jobIdOf deps) JobStatus.failed (some (payloadError m)) st2).setLog =
      st2.setLog ++ [⟨jobIdOf deps, JobStatus.failed, some (payloadError m)⟩] := by
  have hq0 : storeLookup (trackerSet (jobIdOf deps) JobStatus.queued
      (some (payloadFiles (files.map formSummary))) st).store (jobIdOf deps) =
      some JobStatus.queued := storeLookup_trackerSet ..
  have hnt := processJob_error_lookup deps (req.userId.getD "anonymous") req.topic files
    (jobIdOf deps) _ m st2 hget hq0 hrun
  have hfail : updateJobStatus true (jobIdOf deps) JobStatus.failed
      (some (payloadError m)) st2 =
      (Except.ok (), trackerSet (jobIdOf deps) JobStatus.failed (some (payloadError m)) st2) := by
    rcases hnt with hc | hc | hc <;>
      exact updateJobStatus_ok_step (jobIdOf deps) JobStatus.failed
        (some (payloadError m)) st2 _ hc (by decide)
  have h1 : handleUpload req deps st = runJob deps (req.userId.getD "anonymous") req.topic
      files (jobIdOf deps) st := by
    simp [handleUpload, hm, hf, hne, hv, hvne]
  refine ⟨?_, storeLookup_trackerSet .., rfl⟩
  rw [h1]
  simp only [runJob, hget]
  rw [updateJobStatus_ok_queued (jobIdOf deps)
    (some (payloadFiles (files.map formSummary))) st hfresh]
  dsimp only
  rw [hrun]
  dsimp only
  rw [hfail]

/-- A plain-text file used by the concrete pipeline runs. -/
def wFile : FormFile := ⟨"notes.txt", 50, "text/plain"⟩

/-- A concrete POST request carrying one plain-text file. -/
def wReq : UploadRequest := ⟨"POST", true, [FormEntry.file wFile], none, none⟩

/-- Concrete dependencies whose loader factory registers no loader, so the
document-loading stage throws. -/
def noLoaderDeps : Deps :=
  ⟨fun f u j => Except.ok ⟨"file-1", u, j, f.name, f.size, f.type, "mem://file-1", none⟩,
   fun _ => none, fun _ => Except.ok [], fun _ _ => Except.error "llm", fun _ => none,
   fun _ => Except.ok (), true, none, none, some "job-1", "fb", none, "t0"⟩

/-- Witness for C6: with no loader registered, the run returns HTTP 500 with
the job id and the no-loader message, and the job ends in `failed`. -/
theorem handleUpload_stage_failure_witness :
    (handleUpload wReq noLoaderDeps emptyState).1 =
      Except.ok ⟨500, some "Failed to process documents", none,
        some "No document loader registered for text/plain", some "job-1", none, none⟩ ∧
    storeLookup (handleUpload wReq noLoaderDeps emptyState).2.store "job-1" =
      some JobStatus.failed := by
  have h := handleUpload_stage_failure wReq noLoaderDeps emptyState
    "No document loader registered for text/plain"
    (processJob noLoaderDeps "anonymous" none [wFile] "job-1"
      (trackerSet "job-1" JobStatus.queued
        (some (payloadFiles [formSummary wFile])) emptyState)).2
    [wFile] [] (by decide) rfl rfl rfl (by decide) rfl rfl rfl
  exact ⟨by rw [h.1]; rfl, by rw [h.1]; exact h.2.1⟩

/-! C8 -/

/-- C8: `persistFlashcards` invokes the repository exactly once when the
flashcard list is non-empty and never when it is empty; and a validated run
whose generation stage yields zero flashcards still completes: the job
reaches `complete`, the success response reports flashcardCount 0, and the
repository call log is untouched. -/
theorem persistFlashcards_only_when_nonempty :
    (∀ (userId : String) (fl : List Flashcard) (md : GenerationMetadata)
        (repo : SaveInput → Except String Unit) (st : PipeState),
      (persistFlashcards userId fl md repo st).2.repoCalls =
        st.repoCalls ++ (if fl.isEmpty then [] else [⟨userId, fl, md⟩])) ∧
    (∀ (req : UploadRequest) (deps : Deps) (st : PipeState) (files : List FormFile)
        (errs : List String) (ups : List UploadedFile) (docs : List Document)
        (chunks : List DocumentChunk),
      jsToUpper req.method = "POST" → req.hasFormData = true →
      req.files.isEmpty = false → deps.hasGet = true →
      validateEntries (deps.allowedMimeTypes.getD DEFAULT_ALLOWED_MIME_TYPES)
        (deps.maxFileSizeBytes.getD DEFAULT_MAX_FILE_SIZE_BYTES) req.files = (files, errs) →
      files.isEmpty = false →
      storeLookup st.store (jobIdOf deps) = none →
      saveAll deps.storage (req.userId.getD "anonymous") (jobIdOf deps) files =
        Except.ok ups →
      loadDocuments ups deps.loaderFactory = Except.ok docs →
      deps.splitter docs = Except.ok chunks →
      generateFlashcards deps.jsonParse chunks (resolvedOptions deps req.topic) deps.claude =
        Except.ok [] →
      ∃ stF, handleUpload req deps st =
          (Except.ok ⟨200, none, none, none, some (jobIdOf deps), some 0,
            some "Flashcards generated successfully"⟩, stF) ∧
        storeLookup stF.store (jobIdOf deps) = some JobStatus.complete ∧
        stF.repoCalls = st.repoCalls) := by
  constructor
  · intro userId fl md repo st
    unfold persistFlashcards
    by_cases h : fl.isEmpty
    · simp [h]
    · cases hrepo : repo ⟨userId, fl, md⟩ <;> simp [h, hrepo]
  · intro req deps st files errs ups docs chunks hm hf hne hget hv hvne hfresh
      hsave hload hsplit hgen
    refine ⟨trackerSet (jobIdOf deps) JobStatus.complete (some (payloadCardCount 0))
      (trackerSet (jobIdOf deps) JobStatus.generating (some (payloadDocCount docs.length))
        (trackerSet (jobIdOf deps) JobStatus.parsing
          (some (payloadFiles (ups.map uploadedSummary)))
          (trackerSet (jobIdOf deps) JobStatus.queued
            (some (payloadFiles (files.map formSummary))) st))),
      ?_, storeLookup_trackerSet .., rfl⟩
    have h1 : handleUpload req deps st = runJob deps (req.userId.getD "anonymous") req.topic
        files (jobIdOf deps) st := by
      simp [handleUpload, hm, hf, hne, hv, hvne]
    rw [h1]
    simp only [runJob, processJob, hget]
    rw [updateJobStatus_ok_queued (jobIdOf deps)
      (some (payloadFiles (files.map formSummary))) st hfresh]
    dsimp only
    rw [hsave]
    dsimp only
    rw [updateJobStatus_ok_step (jobIdOf deps) JobStatus.parsing
      (some (payloadFiles (ups.map uploadedSummary))) _ JobStatus.queued
      (storeLookup_trackerSet ..) (by decide)]
    dsimp only
    rw [hload]
    dsimp only
    rw [updateJobStatus_ok_step (jobIdOf deps) JobStatus.generating
      (some (payloadDocCount docs.length)) _ JobStatus.parsing
      (storeLookup_trackerSet ..) (by decide)]
    dsimp only
    rw [hsplit]
    dsimp only
    rw [hgen]
    dsimp only
    rw [show persistFlashcards (req.userId.getD "anonymous") ([] : List Flashcard)
        ⟨jobIdOf deps, ups.map (fun u => ⟨u.id, u.name, u.uri⟩),
          resolvedOptions deps req.topic, deps.now⟩ deps.repository
        (trackerSet (jobIdOf deps) JobStatus.generating (some (payloadDocCount docs.length))
          (trackerSet (jobIdOf deps) JobStatus.parsing
            (some (payloadFiles (ups.map uploadedSummary)))
            (trackerSet (jobIdOf deps) JobStatus.queued
              (some (payloadFiles (files.map formSummary))) st))) =
        (Except.ok (), trackerSet (jobIdOf deps) JobStatus.generating
          (some (payloadDocCount docs.length))
          (trackerSet (jobIdOf deps) JobStatus.parsing
            (some (payloadFiles (ups.map uploadedSummary)))
            (trackerSet (jobIdOf deps) JobStatus.queued
              (some (payloadFiles (files.map formSummary))) st))) from rfl]
    dsimp only
    rw [updateJobStatus_ok_step (jobIdOf deps) JobStatus.complete
      (some (payloadCardCount ([] : List Flashcard).length)) _ JobStatus.generating
      (storeLookup_trackerSet ..) (by decide)]
    rfl

/-- Concrete dependencies for a successful zero-flashcard run: one text file
loads into one document, the splitter returns no chunks, so the generator
takes its empty fast path and the LLM and repository are never invoked. -/
def zeroCardDeps : Deps :=
  ⟨fun f u j => Except.ok ⟨"file-1", u, j, f.name, f.size, f.type, "mem://file-1", none⟩,
   fun _ => some (fun _ => Except.ok [⟨none, "hello world", []⟩]),
   fun _ => Except.ok [], fun _ _ => Except.error "llm must not be called", fun _ => none,
   fun _ => Except.error "repository must not be called",
   true, none, none, some "job-1", "fb", none, "t0"⟩

/-- Witness for C8: the zero-flashcard run completes with HTTP 200,
flashcardCount 0, final status `complete`, and no repository call. -/
theorem persistFlashcards_only_when_nonempty_witness :
    (persistFlashcards "u" [] ⟨"j", [], emptyOptions, "t"⟩
      (fun _ => Except.ok ()) emptyState).2.repoCalls = [] ∧
    (∃ stF, handleUpload wReq zeroCardDeps emptyState =
        (Except.ok ⟨200, none, none, none, some (jobIdOf zeroCardDeps), some 0,
          some "Flashcards generated successfully"⟩, stF) ∧
      storeLookup stF.store (jobIdOf zeroCardDeps) = some JobStatus.complete ∧
      stF.repoCalls = emptyState.repoCalls) := by
  constructor
  · simpa using persistFlashcards_only_when_nonempty.1 "u" []
      ⟨"j", [], emptyOptions, "t"⟩ (fun _ => Except.ok ()) emptyState
  · exact persistFlashcards_only_when_nonempty.2 wReq zeroCardDeps emptyState
      [wFile] [] [⟨"file-1", "anonymous", "job-1", "notes.txt", 50, "text/plain",
        "mem://file-1", none⟩]
      [⟨"file-1:0", "hello world",
        [("mediaType", "text/plain"), ("sourceFileName", "notes.txt"),
         ("sourceFileId", "file-1")]⟩]
      [] (by decide) rfl rfl rfl (by decide) rfl rfl rfl rfl rfl rfl

/-! C7 -/

/-- Last element of a status list, with a default for the empty case. -/
def lastStatusD (c : JobStatus) : List JobStatus → JobStatus
  | [] => c
  | a :: rest => lastStatusD a rest

/-- Last element of a status list. -/
def lastStatus : List JobStatus → Option JobStatus
  | [] => none
  | a :: rest => some (lastStatusD a rest)

theorem lastStatusD_append (c : JobStatus) (t : List JobStatus) (s : JobStatus) :
    lastStatusD c (t ++ [s]) = s := by
  induction t generalizing c with
  | nil => rfl
  | cons a rest ih => exact ih a

theorem lastStatus_append (t : List JobStatus) (s : JobStatus) :
    lastStatus (t ++ [s]) = some s := by
  cases t with
  | nil => rfl
  | cons a rest => simp [lastStatus, lastStatusD_append]

theorem validPathFrom_snoc (c : JobStatus) (t : List JobStatus) (s : JobStatus)
    (h : validPathFrom c t = true)
    (hn : specAllowedNext (lastStatusD c t) s = true) :
    validPathFrom c (t ++ [s]) = true := by
  induction t generalizing c with
  | nil =>
      simpa [validPathFrom, lastStatusD] using hn
  | cons a rest ih =>
      rw [validPathFrom] at h
      rw [List.cons_append, validPathFrom]
      simp only [Bool.and_eq_true] at h ⊢
      exact ⟨h.1, ih a h.2 hn⟩

theorem validPath_snoc (t : List JobStatus) (s : JobStatus)
    (h : validPath t = true) (hn : okNext (lastStatus t) s = true) :
    validPath (t ++ [s]) = true := by
  cases t with
  | nil => simpa [validPath, validPathFrom, okNext, lastStatus] using hn
  | cons a rest =>
      rw [validPath] at h
      rw [List.cons_append, validPath]
      simp only [Bool.and_eq_true] at h ⊢
      exact ⟨h.1, validPathFrom_snoc a rest s h.2 hn⟩

theorem jobTrace_snoc (l : List SetCall) (jobId : String) (s : JobStatus)
    (p : Option StatusPayload) :
    jobTrace (l ++ [⟨jobId, s, p⟩]) jobId = jobTrace l jobId ++ [s] := by
  simp [jobTrace]

/-- The driver invariant: the trace persisted so far is a valid path and the
stored status is its last element. -/
def JobInv (jobId : String) (st : PipeState) : Prop :=
  validPath (jobTrace st.setLog jobId) = true ∧
  storeLookup st.store jobId = lastStatus (jobTrace st.setLog jobId)

/-- An initial transition to anything but `queued` throws, leaving the state
unchanged. -/
theorem updateJobStatus_err_initial (jobId : String) (req : JobStatus)
    (payload : Option StatusPayload) (st : PipeState)
    (hprev : storeLookup st.store jobId = none) (hq : req ≠ JobStatus.queued) :
    updateJobStatus true jobId req payload st =
      (Except.error ("Job " ++ jobId ++ " must start in queued state"), st) := by
  unfold updateJobStatus
  simp [hprev, hq]

/-- A transition outside the table throws, leaving the state unchanged. -/
theorem updateJobStatus_err_step (jobId : String) (req : JobStatus)
    (payload : Option StatusPayload) (st : PipeState) (c : JobStatus)
    (hprev : storeLookup st.store jobId = some c)
    (hmem : req ∉ ALLOWED_STATUS_TRANSITIONS c) :
    updateJobStatus true jobId req payload st =
      (Except.error ("Invalid status transition from " ++ statusName c
        ++ " to " ++ statusName req), st) := by
  unfold updateJobStatus
  simp [hprev, hmem]

/-- A `tracker.set` extends the trace of the job by the status written, and the
invariant is preserved when that step is allowed. -/
theorem JobInv_trackerSet (jobId : String) (st : PipeState) (req : JobStatus)
    (hvp : validPath (jobTrace st.setLog jobId) = true)
    (hok : okNext (lastStatus (jobTrace st.setLog jobId)) req = true) :
    JobInv jobId (trackerSet jobId req none st) := by
  constructor
  · rw [show (trackerSet jobId req none st).setLog =
        st.setLog ++ [⟨jobId, req, none⟩] from rfl, jobTrace_snoc]
    exact validPath_snoc _ _ hvp hok
  · rw [storeLookup_trackerSet,
      show (trackerSet jobId req none st).setLog =
        st.setLog ++ [⟨jobId, req, none⟩] from rfl,
      jobTrace_snoc, lastStatus_append]

theorem JobInv_step (jobId : String) (st : PipeState) (req : JobStatus)
    (h : JobInv jobId st) : JobInv jobId (applyUpdate jobId st req) := by
  obtain ⟨hvp, hls⟩ := h
  cases hprev : storeLookup st.store jobId with
  | none =>
      by_cases hq : req = JobStatus.queued
      · subst hq
        have heq : applyUpdate jobId st JobStatus.queued =
            trackerSet jobId JobStatus.queued none st := by
          unfold applyUpdate
          rw [updateJobStatus_ok_queued jobId none st hprev]
        rw [heq]
        refine JobInv_trackerSet jobId st JobStatus.queued hvp ?_
        rw [← hls, hprev]
        decide
      · have heq : applyUpdate jobId st req = st := by
          unfold applyUpdate
          rw [updateJobStatus_err_initial jobId req none st hprev hq]
        rw [heq]
        exact ⟨hvp, hls⟩
  | some c =>
      by_cases hmem : req ∈ ALLOWED_STATUS_TRANSITIONS c
      · have heq : applyUpdate jobId st req = trackerSet jobId req none st := by
          unfold applyUpdate
          rw [updateJobStatus_ok_step jobId req none st c hprev hmem]
        rw [heq]
        refine JobInv_trackerSet jobId st req hvp ?_
        rw [← hls, hprev]
        exact (mem_transitions_iff_spec c req).mp hmem
      · have heq : applyUpdate jobId st req = st := by
          unfold applyUpdate
          rw [updateJobStatus_err_step jobId req none st c hprev hmem]
        rw [heq]
        exact ⟨hvp, hls⟩

theorem JobInv_run (jobId : String) (reqs : List JobStatus) (st : PipeState)
    (h : JobInv jobId st) : JobInv jobId (runUpdates jobId reqs st) := by
  induction reqs generalizing st with
  | nil => exact h
  | cons r rest ih => exact ih (applyUpdate jobId st r) (JobInv_step jobId st r h)

theorem validPathFrom_append_cons (c : JobStatus) (pre : List JobStatus) (s : JobStatus)
    (post : List JobStatus) (h : validPathFrom c (pre ++ s :: post) = true) :
    validPathFrom s post = true := by
  induction pre generalizing c with
  | nil =>
      rw [List.nil_append, validPathFrom] at h
      exact (Bool.and_eq_true_iff.mp h).2
  | cons a rest ih =>
      rw [List.cons_append, validPathFrom] at h
      exact ih a (Bool.and_eq_true_iff.mp h).2

theorem validPath_no_successor_of_terminal (t pre post : List JobStatus) (s : JobStatus)
    (hv : validPath t = true) (ht : t = pre ++ s :: post)
    (hterm : s = JobStatus.complete ∨ s = JobStatus.failed) : post = [] := by
  subst ht
  have hfrom : validPathFrom s post = true := by
    cases pre with
    | nil =>
        rw [List.nil_append, validPath] at hv
        exact (Bool.and_eq_true_iff.mp hv).2
    | cons a rest =>
        rw [List.cons_append, validPath] at hv
        exact validPathFrom_append_cons a rest s post (Bool.and_eq_true_iff.mp hv).2
  cases post with
  | nil => rfl
  | cons b rest =>
      rw [validPathFrom] at hfrom
      have hb := (Bool.and_eq_true_iff.mp hfrom).1
      rcases hterm with h | h <;> subst h <;> cases b <;> simp [specAllowedNext] at hb

/-- C7: driving a job through any sequence of requested statuses via
`updateJobStatus` (over a tracker whose `get` reflects its `set`, starting
with no record), the sequence of statuses actually persisted is a valid path
through the spec section 4.4 table starting at `queued`; in particular once
`complete` or `failed` is persisted, no further status is ever persisted. -/
theorem persisted_statuses_form_valid_path (jobId : String) (reqs : List JobStatus) :
    validPath (jobTrace (runUpdates jobId reqs emptyState).setLog jobId) = true ∧
    (∀ (pre : List JobStatus) (s : JobStatus) (post : List JobStatus),
      jobTrace (runUpdates jobId reqs emptyState).setLog jobId = pre ++ s :: post →
      (s = JobStatus.complete ∨ s = JobStatus.failed) → post = []) := by
  have h := JobInv_run jobId reqs emptyState ⟨rfl, rfl⟩
  exact ⟨h.1, fun pre s post ht hterm =>
    validPath_no_successor_of_terminal _ pre post s h.1 ht hterm⟩

/-- Witness for C7: a concrete driven sequence: the requests queued, parsing,
generating, complete, parsing persist exactly the valid path queued, parsing,
generating, complete (the last request is rejected as a terminal-state
transition), and nothing follows `complete`. -/
theorem persisted_statuses_form_valid_path_witness :
    jobTrace (runUpdates "job-1"
      [JobStatus.queued, JobStatus.parsing, JobStatus.generating,
       JobStatus.complete, JobStatus.parsing] emptyState).setLog "job-1" =
      [JobStatus.queued, JobStatus.parsing, JobStatus.generating, JobStatus.complete] ∧
    validPath (jobTrace (runUpdates "job-1"
      [JobStatus.queued, JobStatus.parsing, JobStatus.generating,
       JobStatus.complete, JobStatus.parsing] emptyState).setLog "job-1") = true ∧
    ([] : List JobStatus) = [] := by
  refine ⟨by decide, (persisted_statuses_form_valid_path "job-1" _).1, ?_⟩
  exact (persisted_statuses_form_valid_path "job-1"
      [JobStatus.queued, JobStatus.parsing, JobStatus.generating,
       JobStatus.complete, JobStatus.parsing]).2
    [JobStatus.queued, JobStatus.parsing, JobStatus.generating] JobStatus.complete []
    (by decide) (Or.inl rfl)

/-! C2 -/

/-- A concrete stored plain-text file. -/
def sampleFile : UploadedFile :=
  ⟨"file-1", "user-1", "job-1", "notes.txt", 10, "text/plain", "mem://file-1", none⟩

/-- A loader factory whose loader extracts zero documents from every file. -/
def zeroDocLoaderFactory : DocumentLoaderFactory :=
  fun _ => some (fun _ => Except.ok [])

/-- A concrete stored file with a media type nothing is registered for. -/
def gifUploadedFile : UploadedFile :=
  ⟨"file-2", "user-1", "job-1", "scan.gif", 10, "image/gif", "mem://file-2", none⟩

/-- A factory registering a throwing loader for the first file and no loader
at all for any other file. -/
def throwFirstFactory : DocumentLoaderFactory :=
  fun f => if f.id = "file-1" then some (fun _ => Except.error "boom") else none

/-- Counterexample for C2, refuting both halves of the claim as stated.
First, when a registered loader returns zero documents for a file,
`loadDocuments` returns fewer documents than input files, so the claimed
output-length lower bound fails.  Second, when the factory returns no loader
for some file but an earlier loader throws first, the batch fails with the
exception of that earlier loader, not with the claimed no-loader-registered
error. -/
theorem loadDocuments_length_counterexample :
    (loadDocuments [sampleFile] zeroDocLoaderFactory = Except.ok [] ∧
      ([] : List Document).length < [sampleFile].length) ∧
    (throwFirstFactory gifUploadedFile = none ∧
      loadDocuments [sampleFile, gifUploadedFile] throwFirstFactory =
        Except.error "boom" ∧
      "boom" ≠ "No document loader registered for " ++ gifUploadedFile.mimeType) := by
  exact ⟨⟨rfl, by decide⟩, ⟨rfl, rfl, by decide⟩⟩

theorem decorateFrom_length (file : UploadedFile) :
    ∀ (i : Nat) (ds : List RawDocument), (decorateFrom file i ds).length = ds.length
  | _, [] => rfl
  | i, _ :: rest => by
      simp [decorateFrom, decorateFrom_length file (i + 1) rest]

theorem mem_decorateFrom_meta (file : UploadedFile) :
    ∀ (i : Nat) (ds : List RawDocument) (d : Document),
      d ∈ decorateFrom file i ds →
      metaLookup d.metadata "sourceFileId" = some file.id
  | _, [], _, h => by cases h
  | i, r :: rest, d, h => by
      rcases List.mem_cons.mp h with h | h
      · subst h
        simp [decorateDocument, metaSet, metaLookup]
      · exact mem_decorateFrom_meta file (i + 1) rest d h

/-- If the factory registers no loader for some file of the batch, the batch
can never succeed, whatever the other loaders do: the no-loader file is
never skipped. -/
theorem loadDocuments_never_ok_of_missing_loader (loaderFactory : DocumentLoaderFactory) :
    ∀ files : List UploadedFile, (∃ f, f ∈ files ∧ loaderFactory f = none) →
      ∀ docs, loadDocuments files loaderFactory ≠ Except.ok docs
  | [], h => by
      rcases h with ⟨f, hf, _⟩
      exact absurd hf (List.not_mem_nil f)
  | g :: rest, h => by
      intro docs heq
      rcases h with ⟨f, hf, hnone⟩
      cases hg : loaderFactory g with
      | none => simp [loadDocuments, hg] at heq
      | some load =>
          cases hl : load g with
          | error e => simp [loadDocuments, hg, hl] at heq
          | ok ds =>
              cases hrest : loadDocuments rest loaderFactory with
              | error e => simp [loadDocuments, hg, hl, hrest] at heq
              | ok docs2 =>
                  rcases List.mem_cons.mp hf with rfl | hf2
                  · rw [hg] at hnone
                    exact Option.noConfusion hnone
                  · exact loadDocuments_never_ok_of_missing_loader loaderFactory rest
                      ⟨f, hf2, hnone⟩ docs2 hrest

/-- C2 (amended): when every file has a registered loader and each loader
yields at least one document, `loadDocuments` succeeds with at least as many
documents as input files and the metadata of every returned document carries
the sourceFileId of one of the input files.  When the factory registers no
loader for some file, the batch never succeeds (the file is not silently
skipped): the whole batch fails with the no-loader-registered error when the
batch reaches that file, and otherwise with the exception of the earlier
loader that threw first. -/
theorem loadDocuments_batch_properties (files : List UploadedFile)
    (loaderFactory : DocumentLoaderFactory) :
    ((∀ f ∈ files, ∃ load, loaderFactory f = some load ∧
        ∃ ds, load f = Except.ok ds ∧ ds ≠ []) →
      ∃ docs, loadDocuments files loaderFactory = Except.ok docs ∧
        files.length ≤ docs.length ∧
        ∀ d ∈ docs, ∃ f, f ∈ files ∧
          metaLookup d.metadata "sourceFileId" = some f.id) ∧
    ((∃ f, f ∈ files ∧ loaderFactory f = none) →
      ∀ docs, loadDocuments files loaderFactory ≠ Except.ok docs) ∧
    (∀ (pre : List UploadedFile) (f : UploadedFile) (post : List UploadedFile),
      files = pre ++ f :: post →
      (∀ g ∈ pre, ∃ load ds, loaderFactory g = some load ∧ load g = Except.ok ds) →
      loaderFactory f = none →
      loadDocuments files loaderFactory =
        Except.error ("No document loader registered for " ++ f.mimeType)) := by
  refine ⟨?_, loadDocuments_never_ok_of_missing_loader loaderFactory files, ?_⟩
  · induction files with
    | nil =>
        intro _
        exact ⟨[], rfl, Nat.le_refl 0, fun d hd => absurd hd (List.not_mem_nil d)⟩
    | cons f rest ih =>
        intro h
        obtain ⟨load, hfac, ds, hds, hne⟩ := h f (List.mem_cons_self f rest)
        obtain ⟨docs', hrest, hlen, hmeta⟩ :=
          ih (fun g hg => h g (List.mem_cons_of_mem f hg))
        refine ⟨decorateAll f ds ++ docs', ?_, ?_, ?_⟩
        · simp [loadDocuments, hfac, hds, hrest]
        · have h1 : 1 ≤ (decorateAll f ds).length := by
            rw [decorateAll, decorateFrom_length]
            exact List.length_pos.mpr hne
          simp only [List.length_append, List.length_cons]
          omega
        · intro d hd
          rcases List.mem_append.mp hd with h | h
          · exact ⟨f, List.mem_cons_self f rest,
              mem_decorateFrom_meta f 0 ds d h⟩
          · obtain ⟨g, hg, hm⟩ := hmeta d h
            exact ⟨g, List.mem_cons_of_mem f hg, hm⟩
  · intro pre
    induction pre generalizing files with
    | nil =>
        intro f post hfiles _ hnone
        subst hfiles
        simp [loadDocuments, hnone]
    | cons g rest ih =>
        intro f post hfiles hpre hnone
        subst hfiles
        obtain ⟨load, ds, hfac, hok⟩ := hpre g (List.mem_cons_self g rest)
        have htail := ih (rest ++ f :: post) f post rfl
          (fun x hx => hpre x (List.mem_cons_of_mem g hx)) hnone
        simp [loadDocuments, hfac, hok, htail]

/-- A loader factory whose loader extracts exactly one document. -/
def oneDocLoaderFactory : DocumentLoaderFactory :=
  fun _ => some (fun _ => Except.ok [⟨none, "hello", []⟩])

/-- Witness for C2: a one-file batch with a one-document loader satisfies the
bound and metadata property; the same batch under an empty factory cannot
succeed and fails with the no-loader error; and the two-file batch whose
second file has no loader cannot succeed either. -/
theorem loadDocuments_batch_properties_witness :
    (∃ docs, loadDocuments [sampleFile] oneDocLoaderFactory = Except.ok docs ∧
      [sampleFile].length ≤ docs.length ∧
      ∀ d ∈ docs, ∃ f, f ∈ [sampleFile] ∧
        metaLookup d.metadata "sourceFileId" = some f.id) ∧
    loadDocuments [sampleFile] (fun _ => none) ≠ Except.ok [] ∧
    loadDocuments [sampleFile, gifUploadedFile] throwFirstFactory ≠ Except.ok [] ∧
    loadDocuments [sampleFile] (fun _ => none) =
      Except.error "No document loader registered for text/plain" := by
  refine ⟨?_, ?_, ?_, ?_⟩
  · refine (loadDocuments_batch_properties [sampleFile] oneDocLoaderFactory).1 ?_
    intro f hf
    exact ⟨fun _ => Except.ok [⟨none, "hello", []⟩], rfl,
      [⟨none, "hello", []⟩], rfl, by decide⟩
  · exact (loadDocuments_batch_properties [sampleFile] (fun _ => none)).2.1
      ⟨sampleFile, List.mem_cons_self sampleFile [], rfl⟩ []
  · exact (loadDocuments_batch_properties [sampleFile, gifUploadedFile]
        throwFirstFactory).2.1
      ⟨gifUploadedFile, List.mem_cons_of_mem sampleFile
        (List.mem_cons_self gifUploadedFile []), rfl⟩ []
  · exact (loadDocuments_batch_properties [sampleFile] (fun _ => none)).2.2
      [] sampleFile [] rfl (fun g hg => absurd hg (List.not_mem_nil g)) rfl

/-! C3 -/

/-- Mapping a non-null entry never throws and yields the claim-side card. -/
theorem toFlashcard_of_ne_null (chunks : List DocumentChunk) (i : Nat) (e : JsValue)
    (h : e ≠ JsValue.null) : toFlashcard chunks i e = Except.ok (specCard chunks i e) := by
  cases e with
  | null => exact absurd rfl h
  | bool b => rfl
  | num n => rfl
  | str s => rfl
  | arr xs => rfl
  | obj fs => rfl

theorem mapWithIndexFrom_all_ok (chunks : List DocumentChunk) :
    ∀ (l : List JsValue) (i : Nat), (∀ e ∈ l, e ≠ JsValue.null) →
      mapWithIndexFrom (toFlashcard chunks) i l =
        Except.ok (mapCardsFrom chunks i l)
  | [], _, _ => rfl
  | e :: rest, i, h => by
      have hrest := mapWithIndexFrom_all_ok chunks rest (i + 1)
        (fun x hx => h x (List.mem_cons_of_mem e hx))
      simp [mapWithIndexFrom, toFlashcard_of_ne_null chunks i e
        (h e (List.mem_cons_self e rest)), hrest, mapCardsFrom]

theorem mapCardsFrom_length (chunks : List DocumentChunk) :
    ∀ (i : Nat) (l : List JsValue), (mapCardsFrom chunks i l).length = l.length
  | _, [] => rfl
  | i, _ :: rest => by simp [mapCardsFrom, mapCardsFrom_length chunks (i + 1) rest]

/-- C3 (amended): for a raw response whose bracket slice parses to a JSON
array none of whose first `maxCards` entries is null, the parser returns
exactly those entries, in order, truncated to `maxCards`, each mapped to the
claim-side flashcard (front/question fallback, back/answer fallback, tags
when present, sourceChunkIds or the positional chunk id). -/
theorem parseFlashcardsResponse_success (jsonParse : String → Option JsValue)
    (raw : String) (chunks : List DocumentChunk) (maxCards : Nat)
    (sub : String) (entries : List JsValue)
    (hb : bracketSlice raw = some sub)
    (hp : jsonParse sub = some (JsValue.arr entries))
    (hnn : ∀ e ∈ entries.take maxCards, e ≠ JsValue.null) :
    parseFlashcardsResponse jsonParse raw chunks maxCards =
      Except.ok (mapCardsFrom chunks 0 (entries.take maxCards)) ∧
    (mapCardsFrom chunks 0 (entries.take maxCards)).length = min maxCards entries.length := by
  constructor
  · simp [parseFlashcardsResponse, hb, hp,
      mapWithIndexFrom_all_ok chunks (entries.take maxCards) 0 hnn]
  · rw [mapCardsFrom_length]
    exact List.length_take maxCards entries

/-- Counterexample for C3: a response whose JSON array contains a null entry
makes the mapping throw a TypeError (JavaScript member access on null)
instead of producing a flashcard with empty front and back. -/
theorem parseFlashcardsResponse_null_entry_counterexample :
    parseFlashcardsResponse (fun _ => some (JsValue.arr [JsValue.null]))
      "[null]" [] 5 =
      Except.error "TypeError: Cannot read properties of null" := rfl

/-- Witness for C3 (scenario F shape): prose around a one-object array maps
to a single card with the front and back fields. -/
theorem parseFlashcardsResponse_success_witness :
    parseFlashcardsResponse
      (fun _ => some (JsValue.arr
        [JsValue.obj [("front", JsValue.str "Q1"), ("back", JsValue.str "A1")]]))
      "Sure! [x] Thanks" [] 20 =
      Except.ok [⟨"card_0", "Q1", "A1", none, some []⟩] := by
  have h := parseFlashcardsResponse_success
    (fun _ => some (JsValue.arr
      [JsValue.obj [("front", JsValue.str "Q1"), ("back", JsValue.str "A1")]]))
    "Sure! [x] Thanks" [] 20 "[x]"
    [JsValue.obj [("front", JsValue.str "Q1"), ("back", JsValue.str "A1")]]
    rfl rfl
    (fun e he => by
      rcases List.mem_singleton.mp he with rfl
      exact fun hc => JsValue.noConfusion hc)
  have h2 : mapCardsFrom [] 0 (List.take 20
      [JsValue.obj [("front", JsValue.str "Q1"), ("back", JsValue.str "A1")]]) =
      [⟨"card_0", "Q1", "A1", none, some []⟩] := by decide
  exact h.1.trans (congrArg Except.ok h2)

/-! C4 -/

theorem firstIndexOf_eq_none_iff : ∀ (l : List Char) (c : Char),
    firstIndexOf l c = none ↔ c ∉ l
  | [], c => by simp [firstIndexOf]
  | a :: rest, c => by
      by_cases h : a = c
      · simp [firstIndexOf, h]
      · rw [firstIndexOf, if_neg h, Option.map_eq_none', firstIndexOf_eq_none_iff rest c]
        simp [Ne.symm h]

theorem lastIndexOf_eq_none_iff (l : List Char) (c : Char) :
    lastIndexOf l c = none ↔ c ∉ l := by
  rw [lastIndexOf, Option.map_eq_none', firstIndexOf_eq_none_iff, List.mem_reverse]

theorem mem_of_mem_jsTrim (raw : String) (c : Char) (h : c ∈ jsTrim raw) :
    c ∈ raw.data := by
  rw [jsTrim, List.mem_reverse] at h
  have h1 := (List.dropWhile_sublist (l := (raw.data.dropWhile Char.isWhitespace).reverse)
    (p := Char.isWhitespace)).mem h
  rw [List.mem_reverse] at h1
  exact (List.dropWhile_sublist (l := raw.data) (p := Char.isWhitespace)).mem h1

/-- C4: the error taxonomy of `parseFlashcardsResponse`: missing bracket
pair gives the did-not-include-JSON-array error; an extracted substring that
is not valid JSON gives the JSON-parse-failed error; a substring parsing to
a non-array gives the malformed-expected-array error. -/
theorem parseFlashcardsResponse_errors :
    (∀ (jp : String → Option JsValue) (raw : String) (chunks : List DocumentChunk)
        (maxCards : Nat),
      ('[' ∉ raw.data ∨ ']' ∉ raw.data) →
      parseFlashcardsResponse jp raw chunks maxCards =
        Except.error "Claude response did not include JSON array") ∧
    (∀ (jp : String → Option JsValue) (raw : String) (chunks : List DocumentChunk)
        (maxCards : Nat) (sub : String),
      bracketSlice raw = some sub → jp sub = none →
      parseFlashcardsResponse jp raw chunks maxCards =
        Except.error "Claude response JSON parse failed") ∧
    (∀ (jp : String → Option JsValue) (raw : String) (chunks : List DocumentChunk)
        (maxCards : Nat) (sub : String) (v : JsValue),
      bracketSlice raw = some sub → jp sub = some v →
      (∀ xs, v ≠ JsValue.arr xs) →
      parseFlashcardsResponse jp raw chunks maxCards =
        Except.error "Claude response malformed: expected array") := by
  refine ⟨?_, ?_, ?_⟩
  · intro jp raw chunks maxCards h
    have hnone : bracketSlice raw = none := by
      rcases h with h | h
      · have h1 : firstIndexOf (jsTrim raw) '[' = none :=
          (firstIndexOf_eq_none_iff (jsTrim raw) '[').mpr
            (fun hc => h (mem_of_mem_jsTrim raw '[' hc))
        simp [bracketSlice, h1]
      · have h1 : lastIndexOf (jsTrim raw) ']' = none :=
          (lastIndexOf_eq_none_iff (jsTrim raw) ']').mpr
            (fun hc => h (mem_of_mem_jsTrim raw ']' hc))
        have h2 := firstIndexOf (jsTrim raw) '['
        cases hf : firstIndexOf (jsTrim raw) '[' <;> simp [bracketSlice, hf, h1]
    simp [parseFlashcardsResponse, hnone]
  · intro jp raw chunks maxCards sub hb hp
    simp [parseFlashcardsResponse, hb, hp]
  · intro jp raw chunks maxCards sub v hb hp hv
    cases v with
    | arr xs => exact absurd rfl (hv xs)
    | null => simp [parseFlashcardsResponse, hb, hp]
    | bool b => simp [parseFlashcardsResponse, hb, hp]
    | num n => simp [parseFlashcardsResponse, hb, hp]
    | str s => simp [parseFlashcardsResponse, hb, hp]
    | obj fs => simp [parseFlashcardsResponse, hb, hp]

/-- Witness for C4 (scenario E): the bare string "not json" contains no
bracket, so parsing fails with the did-not-include-JSON-array error. -/
theorem parseFlashcardsResponse_errors_witness :
    parseFlashcardsResponse (fun _ => none) "not json" [] 20 =
      Except.error "Claude response did not include JSON array" :=
  parseFlashcardsResponse_errors.1 (fun _ => none) "not json" [] 20
    (Or.inl (by decide))

end Flashcards
